import Mathlib

/-!
# Log-odds helpers and parameter defaults of `octomap_world.h`

A shallow embedding of the header `octomap_world/octomap_world.h`:

* the two conversion macros `LOGODDS` and `LOGODDS_INVERSE`;
* the parameter records `SaliencyParameters` and `OctomapParameters` with the
  values their default constructors store;
* the inline setters of `OctomapWorld` (`setWorkspaceBox`, `setIOR`,
  `setGroundRemoval`);
* the members `getPotentialEntropy` and `updateOccupancy`, which the header
  declares and does not define: their bodies follow the written specification
  and are marked as such.

Numbers are taken in an ordered field `α`; the functions of `<cmath>` used by
the macros (`log`, `exp`, `log2`) are arguments of the definitions, so that
every definition can be evaluated over `ℚ`.  The theorems instantiate them
over `ℝ` with `Real.log`, `Real.exp` and `Real.logb 2`: they are statements
about the exact real-number reading of the header, not about IEEE rounding.
-/

/-! ## The macros -/

/-- The macro `LOGODDS(x)`:
`((x != 1) && (x != 0)) ? log(x / (1 - x)) : ((x == 1) ? 10 : -10)`. -/
def LOGODDS {α : Type} [LinearOrderedField α] (log : α → α) (x : α) : α :=
  if x ≠ 1 ∧ x ≠ 0 then log (x / (1 - x)) else (if x = 1 then 10 else -10)

/-- The macro `LOGODDS_INVERSE(l)`: `1.0 / (1 + exp(-l))`. -/
def LOGODDS_INVERSE {α : Type} [LinearOrderedField α] (exp : α → α) (l : α) : α :=
  1.0 / (1 + exp (-l))

namespace volumetric_mapping

/-! ## Parameter records -/

/-- The fields of `struct SaliencyParameters`, in declaration order. -/
structure SaliencyParameters (α : Type) where
  alpha : α
  beta : α
  saliency_threshold : Int
  timestamp : Int
  projection_limit : α
  ground_limit : α
  yaw_lb : α
  yaw_ub : α
  yaw_bins : Int
  r_lb : α
  r_ub : α
  r_bins : Int
  logodds_abnormal : α
  logodds_normal : α
  logodds_prior : α
  logodds_abnormal_thres : α
  logodds_normal_thres : α

/-- The default constructor `SaliencyParameters::SaliencyParameters()`:
the member initialiser list of the header, value by value. -/
def SaliencyParameters.default {α : Type} [LinearOrderedField α] (log : α → α) :
    SaliencyParameters α where
  alpha := 0.7
  beta := -0.0008
  saliency_threshold := 125
  timestamp := 0
  projection_limit := 5.0
  yaw_lb := -180.0
  yaw_ub := 180.0
  yaw_bins := 0
  r_lb := 1.0
  r_ub := 3.0
  r_bins := 0
  logodds_abnormal := LOGODDS log 0.7
  logodds_normal := LOGODDS log 0.1
  logodds_prior := LOGODDS log 0.5
  logodds_abnormal_thres := LOGODDS log 0.85
  logodds_normal_thres := LOGODDS log 0.4
  ground_limit := -10

/-- The value of `std::numeric_limits<double>::max()`. -/
def DBL_MAX {α : Type} [LinearOrderedField α] : α := (2 ^ 53 - 1) * 2 ^ 971

/-- The fields of `struct OctomapParameters`, in declaration order. -/
structure OctomapParameters (α : Type) where
  resolution : α
  probability_hit : α
  probability_miss : α
  threshold_min : α
  threshold_max : α
  threshold_occupancy : α
  filter_speckles : Bool
  max_free_space : α
  min_height_free_space : α
  sensor_max_range : α
  visualize_min_z : α
  visualize_max_z : α
  treat_unknown_as_occupied : Bool
  change_detection_enabled : Bool

/-- The default constructor `OctomapParameters::OctomapParameters()`. -/
def OctomapParameters.default {α : Type} [LinearOrderedField α] : OctomapParameters α where
  resolution := 0.15
  probability_hit := 0.65
  probability_miss := 0.4
  threshold_min := 0.12
  threshold_max := 0.97
  threshold_occupancy := 0.7
  filter_speckles := true
  max_free_space := 0.0
  min_height_free_space := 0.0
  sensor_max_range := 5.0
  visualize_min_z := -DBL_MAX
  visualize_max_z := DBL_MAX
  treat_unknown_as_occupied := true
  change_detection_enabled := false

/-! ## The world object and its inline setters -/

/-- The data members of `class OctomapWorld`.  The members whose types come from
libraries (`octree_`, `camerapose_`, `robot_size_`, `time_last_`, `CamModel`,
`ProjCloud`) are kept together in `members`, of an abstract type `τ`. -/
structure OctomapWorld (α τ : Type) where
  members : τ
  params_ : OctomapParameters α
  salconfig_ : SaliencyParameters α
  exp_percent_ : α
  exp_percent_rate_ : α
  exp_percent_prev_ : α
  time_past_ : α
  start_timing_ : Bool
  minx_ : α
  miny_ : α
  minz_ : α
  maxx_ : α
  maxy_ : α
  maxz_ : α
  z_ground : α

/-- The members of a world object as the header initialises them: `params_` and
`salconfig_` default-constructed, the in-class initialisers `= 0`, `= true` and
`z_ground = -100` for the scalar members, and `m` for the library-typed ones. -/
def OctomapWorld.init {α τ : Type} [LinearOrderedField α] (log : α → α) (m : τ) :
    OctomapWorld α τ where
  members := m
  params_ := OctomapParameters.default
  salconfig_ := SaliencyParameters.default log
  exp_percent_ := 0
  exp_percent_rate_ := 0
  exp_percent_prev_ := 0
  time_past_ := 0
  start_timing_ := true
  minx_ := 0
  miny_ := 0
  minz_ := 0
  maxx_ := 0
  maxy_ := 0
  maxz_ := 0
  z_ground := -100

/-- The conversion `(unsigned char)x` of a floating value: the fractional part is
discarded (truncation toward zero) and the result is an 8-bit unsigned value.
The conversion is only defined by the language when the truncated value fits
in `0 .. 255`; outside that range the result is taken modulo `2 ^ 8`. -/
def toUnsignedChar {α : Type} [LinearOrderedField α] [FloorRing α] (x : α) : Int :=
  (if 0 ≤ x then Int.floor x else Int.ceil x) % 2 ^ 8

/-- The inline member `OctomapWorld::setWorkspaceBox`. -/
def OctomapWorld.setWorkspaceBox {α τ : Type} (w : OctomapWorld α τ)
    (minx miny minz maxx maxy maxz : α) : OctomapWorld α τ :=
  { w with minx_ := minx, miny_ := miny, minz_ := minz,
           maxx_ := maxx, maxy_ := maxy, maxz_ := maxz }

/-- The inline member `OctomapWorld::setIOR`:
`salconfig_.alpha = alpha; salconfig_.beta = beta;
salconfig_.saliency_threshold = (unsigned char)sal_thres;`. -/
def OctomapWorld.setIOR {α τ : Type} [LinearOrderedField α] [FloorRing α]
    (w : OctomapWorld α τ) (alpha beta sal_thres : α) : OctomapWorld α τ :=
  { w with salconfig_ :=
      { w.salconfig_ with
          alpha := alpha
          beta := beta
          saliency_threshold := toUnsignedChar sal_thres } }

/-- The inline member `OctomapWorld::setGroundRemoval`. -/
def OctomapWorld.setGroundRemoval {α τ : Type} (w : OctomapWorld α τ) (level : α) :
    OctomapWorld α τ :=
  { w with z_ground := level }

/-! ## Members declared in the header and defined elsewhere -/

/-- Modelled from the spec: the per-leaf saliency record
`octomap::SaliencyOcTreeNode::Saliency`, whose declaration is in
`octomap/SaliencyOcTree.h` and is not among the sources.  The spec gives it as
`SaliencyState {current_value: uint8, last_update_tick: int,
potential[r_bins][yaw_bins]: float}`; `potential r yaw` is the log-odds held by
the range/yaw bin `(r, yaw)`. -/
structure Saliency (α : Type) where
  current_value : Nat
  last_update_tick : Int
  potential : Int → Int → α

/-- The binary entropy in bits, `-p * log2(p) - (1 - p) * log2(1 - p)`. -/
def binaryEntropy {α : Type} [LinearOrderedField α] (log2 : α → α) (p : α) : α :=
  -p * log2 p - (1 - p) * log2 (1 - p)

/-- Modelled from the spec: the body of `OctomapWorld::getPotentialEntropy`,
which the header only declares.  The spec gives
`potentialEntropy(state, r_bin, yaw_bin) = -p·log2(p) - (1-p)·log2(1-p)`, with
`p` the sigmoid (`LOGODDS_INVERSE`) of the log-odds of the bin. -/
def getPotentialEntropy {α : Type} [LinearOrderedField α] (exp log2 : α → α)
    (sal : Saliency α) (r_ind yaw_ind : Int) : α :=
  binaryEntropy log2 (LOGODDS_INVERSE exp (sal.potential r_ind yaw_ind))

/-- Modelled from the spec: clamping of a log-odds value to the interval
`[lo, hi]`, the last step of `insertOrUpdate(key, delta)`. -/
def clampLogOdds {α : Type} [LinearOrderedField α] (lo hi v : α) : α :=
  if v < lo then lo else if hi < v then hi else v

/-- Modelled from the spec: the effect of `OctomapWorld::updateOccupancy` (only
declared in the header) on the log-odds `x` of one leaf.  The spec gives
`insertOrUpdate(key, delta)`: adds `delta`, clamps to
`[threshold_min, threshold_max]`, both thresholds taken in log-odds. -/
def insertOrUpdate {α : Type} [LinearOrderedField α] (log : α → α)
    (params : OctomapParameters α) (delta x : α) : α :=
  clampLogOdds (LOGODDS log params.threshold_min) (LOGODDS log params.threshold_max)
    (x + delta)

/-- Modelled from the spec: the update of a free key,
`logodds(probability_miss)` applied through `insertOrUpdate`. -/
def missUpdate {α : Type} [LinearOrderedField α] (log : α → α)
    (params : OctomapParameters α) (x : α) : α :=
  insertOrUpdate log params (LOGODDS log params.probability_miss) x

/-- Modelled from the spec: the update of an occupied key,
`logodds(probability_hit)` applied through `insertOrUpdate`. -/
def hitUpdate {α : Type} [LinearOrderedField α] (log : α → α)
    (params : OctomapParameters α) (x : α) : α :=
  insertOrUpdate log params (LOGODDS log params.probability_hit) x

end volumetric_mapping

/-! ## Auxiliary facts on the two macros over the reals -/

/-- Away from the edge cases the macro is the logarithm of the odds. -/
theorem LOGODDS_eq_log {p : ℝ} (h0 : 0 < p) (h1 : p < 1) :
    LOGODDS Real.log p = Real.log (p / (1 - p)) := by
  have hp1 : p ≠ 1 := ne_of_lt h1
  have hp0 : p ≠ 0 := ne_of_gt h0
  simp [LOGODDS, hp1, hp0]

/-- The inverse macro written with a positive exponential. -/
theorem LOGODDS_INVERSE_eq (l : ℝ) :
    LOGODDS_INVERSE Real.exp l = Real.exp l / (1 + Real.exp l) := by
  have hpos : 0 < Real.exp l := Real.exp_pos l
  have hne : Real.exp l ≠ 0 := ne_of_gt hpos
  simp only [LOGODDS_INVERSE, Real.exp_neg]
  norm_num
  field_simp
  ring

/-- The inverse macro takes its values strictly between 0 and 1. -/
theorem LOGODDS_INVERSE_mem (l : ℝ) :
    0 < LOGODDS_INVERSE Real.exp l ∧ LOGODDS_INVERSE Real.exp l < 1 := by
  have hpos : 0 < Real.exp l := Real.exp_pos l
  rw [LOGODDS_INVERSE_eq]
  constructor
  · positivity
  · rw [div_lt_one (by positivity)]
    linarith

/-- `LOGODDS_INVERSE` undoes `LOGODDS` on the open unit interval. -/
theorem LOGODDS_INVERSE_LOGODDS {p : ℝ} (h0 : 0 < p) (h1 : p < 1) :
    LOGODDS_INVERSE Real.exp (LOGODDS Real.log p) = p := by
  have h1p : 0 < 1 - p := by linarith
  have hq : 0 < p / (1 - p) := div_pos h0 h1p
  rw [LOGODDS_eq_log h0 h1, LOGODDS_INVERSE_eq, Real.exp_log hq]
  field_simp

/-- `LOGODDS` undoes `LOGODDS_INVERSE` everywhere. -/
theorem LOGODDS_LOGODDS_INVERSE (l : ℝ) :
    LOGODDS Real.log (LOGODDS_INVERSE Real.exp l) = l := by
  obtain ⟨h0, h1⟩ := LOGODDS_INVERSE_mem l
  have hpos : 0 < Real.exp l := Real.exp_pos l
  rw [LOGODDS_eq_log h0 h1, LOGODDS_INVERSE_eq]
  have : Real.exp l / (1 + Real.exp l) / (1 - Real.exp l / (1 + Real.exp l)) = Real.exp l := by
    field_simp
  rw [this, Real.log_exp]

/-- The inverse macro is strictly increasing. -/
theorem LOGODDS_INVERSE_le_iff (a b : ℝ) :
    LOGODDS_INVERSE Real.exp a ≤ LOGODDS_INVERSE Real.exp b ↔ a ≤ b := by
  have ha : 0 < Real.exp a := Real.exp_pos a
  have hb : 0 < Real.exp b := Real.exp_pos b
  rw [LOGODDS_INVERSE_eq, LOGODDS_INVERSE_eq, div_le_div_iff₀ (by positivity) (by positivity),
    ← Real.exp_le_exp (x := a) (y := b)]
  constructor <;> intro h <;> nlinarith

/-- On the open unit interval, comparing log-odds is comparing probabilities
with the inverse macro. -/
theorem LOGODDS_le_iff {p : ℝ} (h0 : 0 < p) (h1 : p < 1) (c : ℝ) :
    LOGODDS Real.log p ≤ c ↔ p ≤ LOGODDS_INVERSE Real.exp c := by
  rw [← LOGODDS_INVERSE_le_iff, LOGODDS_INVERSE_LOGODDS h0 h1]

/-- The lower-bound counterpart of `LOGODDS_le_iff`. -/
theorem le_LOGODDS_iff {p : ℝ} (h0 : 0 < p) (h1 : p < 1) (c : ℝ) :
    c ≤ LOGODDS Real.log p ↔ LOGODDS_INVERSE Real.exp c ≤ p := by
  rw [← LOGODDS_INVERSE_le_iff, LOGODDS_INVERSE_LOGODDS h0 h1]

/-- Log-odds of two probabilities of the open unit interval compare as the
probabilities do. -/
theorem LOGODDS_lt_LOGODDS {p q : ℝ} (h0 : 0 < p) (hpq : p < q) (h1 : q < 1) :
    LOGODDS Real.log p < LOGODDS Real.log q := by
  have hp1 : p < 1 := lt_trans hpq h1
  have hq0 : 0 < q := lt_trans h0 hpq
  rw [LOGODDS_eq_log h0 hp1, LOGODDS_eq_log hq0 h1]
  apply Real.log_lt_log (div_pos h0 (by linarith))
  rw [div_lt_div_iff₀ (by linarith) (by linarith)]
  nlinarith

/-- The log-odds of one half is zero. -/
theorem LOGODDS_half : LOGODDS Real.log (0.5 : ℝ) = 0 := by
  rw [LOGODDS_eq_log (by norm_num) (by norm_num)]
  norm_num

/-! ## The log-odds macro against its reference function -/

/-- Claim C1. `LOGODDS` is the reference log-odds function with two explicit
edge cases: `LOGODDS(p) = ln (p / (1 - p))` for every real `0 < p < 1`,
`LOGODDS(0) = -10` and `LOGODDS(1) = 10`. -/
theorem LOGODDS_reference :
    (∀ p : ℝ, 0 < p → p < 1 → LOGODDS Real.log p = Real.log (p / (1 - p))) ∧
      LOGODDS Real.log (0 : ℝ) = -10 ∧ LOGODDS Real.log (1 : ℝ) = 10 := by
  refine ⟨fun p h0 h1 => LOGODDS_eq_log h0 h1, ?_, ?_⟩
  · simp [LOGODDS]
  · simp [LOGODDS]

/-- The reference formula of C1 at `p = 1/2`. -/
theorem LOGODDS_reference_witness :
    (0 : ℝ) < 1 / 2 ∧ (1 / 2 : ℝ) < 1 ∧
      LOGODDS Real.log (1 / 2 : ℝ) = Real.log ((1 / 2) / (1 - 1 / 2)) :=
  ⟨by norm_num, by norm_num, LOGODDS_reference.1 (1 / 2) (by norm_num) (by norm_num)⟩

/-- Claim C8. Over the reals the two macros are mutually inverse away from the
edge cases: `LOGODDS_INVERSE(LOGODDS(p)) = p` for `0 < p < 1`, and for every
`l` the value `LOGODDS_INVERSE(l)` is neither 0 nor 1 and
`LOGODDS(LOGODDS_INVERSE(l)) = l`. -/
theorem LOGODDS_mutually_inverse :
    (∀ p : ℝ, 0 < p → p < 1 → LOGODDS_INVERSE Real.exp (LOGODDS Real.log p) = p) ∧
      (∀ l : ℝ, LOGODDS_INVERSE Real.exp l ≠ 0 ∧ LOGODDS_INVERSE Real.exp l ≠ 1 ∧
        LOGODDS Real.log (LOGODDS_INVERSE Real.exp l) = l) := by
  refine ⟨fun p h0 h1 => LOGODDS_INVERSE_LOGODDS h0 h1, fun l => ?_⟩
  obtain ⟨h0, h1⟩ := LOGODDS_INVERSE_mem l
  exact ⟨ne_of_gt h0, ne_of_lt h1, LOGODDS_LOGODDS_INVERSE l⟩

/-- The round trip of C8 at `p = 1/4`. -/
theorem LOGODDS_mutually_inverse_witness :
    (0 : ℝ) < 1 / 4 ∧ (1 / 4 : ℝ) < 1 ∧
      LOGODDS_INVERSE Real.exp (LOGODDS Real.log (1 / 4 : ℝ)) = 1 / 4 :=
  ⟨by norm_num, by norm_num,
    LOGODDS_mutually_inverse.1 (1 / 4) (by norm_num) (by norm_num)⟩

/-! ## No saturation between the edge cases -/

/-- The exponential of ten is below `99999`. -/
theorem exp_ten_lt : Real.exp 10 < 99999 := by
  have h : Real.exp 10 = Real.exp 1 ^ 10 := by
    rw [← Real.exp_nat_mul]
    norm_num
  rw [h]
  have h1 : Real.exp 1 < 2.72 := lt_trans Real.exp_one_lt_d9 (by norm_num)
  have h2 : Real.exp 1 ^ 10 < (2.72 : ℝ) ^ 10 :=
    pow_lt_pow_left₀ h1 (Real.exp_pos 1).le (by norm_num)
  exact lt_trans h2 (by norm_num)

/-- Claim C2, refuted as stated: `p = 0.99999` lies in `[0, 1]` and its
log-odds `ln 99999` exceeds the claimed upper bound 10. -/
theorem LOGODDS_not_saturated :
    (0 : ℝ) ≤ 0.99999 ∧ (0.99999 : ℝ) ≤ 1 ∧ ¬ LOGODDS Real.log (0.99999 : ℝ) ≤ 10 := by
  refine ⟨by norm_num, by norm_num, ?_⟩
  rw [LOGODDS_eq_log (by norm_num) (by norm_num), not_le,
    Real.lt_log_iff_exp_lt (by norm_num)]
  have h : (0.99999 : ℝ) / (1 - 0.99999) = 99999 := by norm_num
  rw [h]
  exact exp_ten_lt

/-- Claim C2, amended. For a real `0 ≤ p ≤ 1` the value `LOGODDS(p)` lies in
`[-10, 10]` exactly when `p` is one of the edge cases 0 and 1 or lies between
`LOGODDS_INVERSE(-10)` and `LOGODDS_INVERSE(10)`; the edge cases give the
values `LOGODDS(0) = -10` and `LOGODDS(1) = 10`. -/
theorem LOGODDS_bounded_iff (p : ℝ) (h0 : 0 ≤ p) (h1 : p ≤ 1) :
    ((-10 ≤ LOGODDS Real.log p ∧ LOGODDS Real.log p ≤ 10) ↔
        (p = 0 ∨ p = 1 ∨
          (LOGODDS_INVERSE Real.exp (-10) ≤ p ∧ p ≤ LOGODDS_INVERSE Real.exp 10))) ∧
      LOGODDS Real.log (0 : ℝ) = -10 ∧ LOGODDS Real.log (1 : ℝ) = 10 := by
  have e0 : LOGODDS Real.log (0 : ℝ) = -10 := by simp [LOGODDS]
  have e1 : LOGODDS Real.log (1 : ℝ) = 10 := by simp [LOGODDS]
  refine ⟨?_, e0, e1⟩
  rcases eq_or_lt_of_le h0 with h | h
  · subst h
    simp [e0]
  rcases eq_or_lt_of_le h1 with h' | h'
  · subst h'
    simp [e1]
  rw [le_LOGODDS_iff h h', LOGODDS_le_iff h h']
  constructor
  · intro hb
    exact Or.inr (Or.inr hb)
  · rintro (hz | ho | hb)
    · exact absurd hz (ne_of_gt h)
    · exact absurd ho (ne_of_lt h')
    · exact hb

/-- The amended C2 at `p = 1/2`, which has log-odds 0. -/
theorem LOGODDS_bounded_iff_witness :
    ((-10 ≤ LOGODDS Real.log (1 / 2 : ℝ) ∧ LOGODDS Real.log (1 / 2 : ℝ) ≤ 10) ↔
        ((1 / 2 : ℝ) = 0 ∨ (1 / 2 : ℝ) = 1 ∨
          (LOGODDS_INVERSE Real.exp (-10) ≤ (1 / 2 : ℝ) ∧
            (1 / 2 : ℝ) ≤ LOGODDS_INVERSE Real.exp 10))) ∧
      LOGODDS Real.log (0 : ℝ) = -10 ∧ LOGODDS Real.log (1 : ℝ) = 10 :=
  LOGODDS_bounded_iff (1 / 2) (by norm_num) (by norm_num)

/-! ## Consistency of the default parameters -/

namespace volumetric_mapping

/-- Claim C9. The five default saliency log-odds constants are strictly ordered
`logodds_normal < logodds_normal_thres < logodds_prior < logodds_abnormal <
logodds_abnormal_thres`, with `logodds_prior = 0`; the prior and the prior plus
one abnormal increment both lie strictly inside the hysteresis band. -/
theorem default_saliency_logodds_ordered :
    (SaliencyParameters.default Real.log).logodds_normal
        < (SaliencyParameters.default Real.log).logodds_normal_thres ∧
      (SaliencyParameters.default Real.log).logodds_normal_thres
        < (SaliencyParameters.default Real.log).logodds_prior ∧
      (SaliencyParameters.default Real.log).logodds_prior
        < (SaliencyParameters.default Real.log).logodds_abnormal ∧
      (SaliencyParameters.default Real.log).logodds_abnormal
        < (SaliencyParameters.default Real.log).logodds_abnormal_thres ∧
      (SaliencyParameters.default Real.log).logodds_prior = 0 ∧
      (SaliencyParameters.default Real.log).logodds_normal_thres
        < (SaliencyParameters.default Real.log).logodds_prior
          + (SaliencyParameters.default Real.log).logodds_abnormal ∧
      (SaliencyParameters.default Real.log).logodds_prior
          + (SaliencyParameters.default Real.log).logodds_abnormal
        < (SaliencyParameters.default Real.log).logodds_abnormal_thres := by
  simp only [SaliencyParameters.default]
  have a : LOGODDS Real.log (0.1 : ℝ) < LOGODDS Real.log 0.4 :=
    LOGODDS_lt_LOGODDS (by norm_num) (by norm_num) (by norm_num)
  have b : LOGODDS Real.log (0.4 : ℝ) < LOGODDS Real.log 0.5 :=
    LOGODDS_lt_LOGODDS (by norm_num) (by norm_num) (by norm_num)
  have c : LOGODDS Real.log (0.5 : ℝ) < LOGODDS Real.log 0.7 :=
    LOGODDS_lt_LOGODDS (by norm_num) (by norm_num) (by norm_num)
  have d : LOGODDS Real.log (0.7 : ℝ) < LOGODDS Real.log 0.85 :=
    LOGODDS_lt_LOGODDS (by norm_num) (by norm_num) (by norm_num)
  have z := LOGODDS_half
  refine ⟨a, b, c, d, z, ?_, ?_⟩ <;> linarith

/-- Claim C10. The default occupancy parameters are mutually consistent:
`LOGODDS(threshold_min) < LOGODDS(probability_miss) < 0 < LOGODDS(probability_hit)
< LOGODDS(threshold_occupancy) < LOGODDS(threshold_max)`; a miss strictly lowers
and a hit strictly raises a log-odds value, and one hit or one miss applied to a
leaf at log-odds 0 is left unchanged by the clamping. -/
theorem default_octomap_parameters_consistent :
    LOGODDS Real.log (OctomapParameters.default (α := ℝ)).threshold_min
        < LOGODDS Real.log (OctomapParameters.default (α := ℝ)).probability_miss ∧
      LOGODDS Real.log (OctomapParameters.default (α := ℝ)).probability_miss < 0 ∧
      0 < LOGODDS Real.log (OctomapParameters.default (α := ℝ)).probability_hit ∧
      LOGODDS Real.log (OctomapParameters.default (α := ℝ)).probability_hit
        < LOGODDS Real.log (OctomapParameters.default (α := ℝ)).threshold_occupancy ∧
      LOGODDS Real.log (OctomapParameters.default (α := ℝ)).threshold_occupancy
        < LOGODDS Real.log (OctomapParameters.default (α := ℝ)).threshold_max ∧
      (∀ x : ℝ,
        x + LOGODDS Real.log (OctomapParameters.default (α := ℝ)).probability_miss < x ∧
          x < x + LOGODDS Real.log (OctomapParameters.default (α := ℝ)).probability_hit) ∧
      hitUpdate Real.log OctomapParameters.default 0
        = LOGODDS Real.log (OctomapParameters.default (α := ℝ)).probability_hit ∧
      missUpdate Real.log OctomapParameters.default 0
        = LOGODDS Real.log (OctomapParameters.default (α := ℝ)).probability_miss := by
  simp only [OctomapParameters.default, hitUpdate, missUpdate, insertOrUpdate, zero_add]
  have a : LOGODDS Real.log (0.12 : ℝ) < LOGODDS Real.log 0.4 :=
    LOGODDS_lt_LOGODDS (by norm_num) (by norm_num) (by norm_num)
  have b : LOGODDS Real.log (0.4 : ℝ) < LOGODDS Real.log 0.5 :=
    LOGODDS_lt_LOGODDS (by norm_num) (by norm_num) (by norm_num)
  have c : LOGODDS Real.log (0.5 : ℝ) < LOGODDS Real.log 0.65 :=
    LOGODDS_lt_LOGODDS (by norm_num) (by norm_num) (by norm_num)
  have d : LOGODDS Real.log (0.65 : ℝ) < LOGODDS Real.log 0.7 :=
    LOGODDS_lt_LOGODDS (by norm_num) (by norm_num) (by norm_num)
  have e : LOGODDS Real.log (0.7 : ℝ) < LOGODDS Real.log 0.97 :=
    LOGODDS_lt_LOGODDS (by norm_num) (by norm_num) (by norm_num)
  rw [LOGODDS_half] at b c
  refine ⟨a, b, c, d, e, fun x => ⟨by linarith, by linarith⟩, ?_, ?_⟩
  · have h1 : ¬ LOGODDS Real.log (0.65 : ℝ) < LOGODDS Real.log 0.12 := by
      rw [not_lt]; linarith
    have h2 : ¬ LOGODDS Real.log (0.97 : ℝ) < LOGODDS Real.log 0.65 := by
      rw [not_lt]; linarith
    simp [clampLogOdds, h1, h2]
  · have h1 : ¬ LOGODDS Real.log (0.4 : ℝ) < LOGODDS Real.log 0.12 := by
      rw [not_lt]; linarith
    have h2 : ¬ LOGODDS Real.log (0.97 : ℝ) < LOGODDS Real.log 0.4 := by
      rw [not_lt]; linarith
    simp [clampLogOdds, h1, h2]

end volumetric_mapping

/-! ## Entropy of an unobserved voxel -/

/-- The binary logarithm of one half. -/
theorem logb_two_half : Real.logb 2 (0.5 : ℝ) = -1 := by
  have h : (0.5 : ℝ) = 2⁻¹ := by norm_num
  rw [h, Real.logb_inv, Real.logb_self_eq_one (by norm_num)]

namespace volumetric_mapping

/-- The binary entropy in bits is the natural one divided by `ln 2`. -/
theorem binaryEntropy_eq_binEntropy_div (p : ℝ) :
    binaryEntropy (Real.logb 2) p = Real.binEntropy p / Real.log 2 := by
  simp only [binaryEntropy, Real.logb, Real.binEntropy, Real.log_inv]
  ring

/-- The binary entropy in bits is at most one bit. -/
theorem binaryEntropy_le_one (p : ℝ) : binaryEntropy (Real.logb 2) p ≤ 1 := by
  have h2 : 0 < Real.log 2 := Real.log_pos (by norm_num)
  rw [binaryEntropy_eq_binEntropy_div, div_le_one h2]
  exact Real.binEntropy_le_log_two

/-- The binary entropy in bits of one half is one bit. -/
theorem binaryEntropy_half : binaryEntropy (Real.logb 2) (0.5 : ℝ) = 1 := by
  have h : (1 : ℝ) - 0.5 = 0.5 := by norm_num
  simp only [binaryEntropy, h, logb_two_half]
  norm_num

/-- The sigmoid of the log-odds zero is one half. -/
theorem LOGODDS_INVERSE_zero : LOGODDS_INVERSE Real.exp 0 = 0.5 := by
  simp only [LOGODDS_INVERSE, neg_zero, Real.exp_zero]
  norm_num

/-- Claim C3. For an unobserved voxel, whose every range/yaw bin holds the
default prior `logodds_prior = LOGODDS(0.5)`, the probability of each bin is
`LOGODDS_INVERSE(logodds_prior) = 0.5` and `getPotentialEntropy` returns
exactly 1 for every bin index, which is the largest value the binary entropy
takes on `[0, 1]`. -/
theorem getPotentialEntropy_unobserved (sal : Saliency ℝ)
    (h : ∀ r yaw : Int,
      sal.potential r yaw = (SaliencyParameters.default Real.log).logodds_prior) :
    LOGODDS_INVERSE Real.exp (SaliencyParameters.default Real.log).logodds_prior = 0.5 ∧
      (∀ r_ind yaw_ind : Int,
        getPotentialEntropy Real.exp (Real.logb 2) sal r_ind yaw_ind = 1) ∧
      (∀ p : ℝ, 0 ≤ p → p ≤ 1 → binaryEntropy (Real.logb 2) p ≤ 1) ∧
      binaryEntropy (Real.logb 2) 0.5 = 1 := by
  have hp : (SaliencyParameters.default Real.log).logodds_prior = 0 := LOGODDS_half
  refine ⟨?_, fun r y => ?_, fun p _ _ => binaryEntropy_le_one p, binaryEntropy_half⟩
  · rw [hp, LOGODDS_INVERSE_zero]
  · rw [getPotentialEntropy, h r y, hp, LOGODDS_INVERSE_zero, binaryEntropy_half]

/-- Claim C3 on the voxel whose bins all hold `LOGODDS(0.5)`. -/
theorem getPotentialEntropy_unobserved_witness :
    getPotentialEntropy Real.exp (Real.logb 2)
      { current_value := 0, last_update_tick := 0,
        potential := fun _ _ => LOGODDS Real.log (0.5 : ℝ) } 0 0 = 1 :=
  (getPotentialEntropy_unobserved
    { current_value := 0, last_update_tick := 0,
      potential := fun _ _ => LOGODDS Real.log (0.5 : ℝ) }
    (fun _ _ => rfl)).2.1 0 0

end volumetric_mapping

/-! ## The default configuration at the configuration boundary -/

namespace volumetric_mapping

/-- Claim C6, refuted as stated: the default configuration does not have
well-formed histogram bins, because both default bin counts are 0. -/
theorem default_configuration_not_wellformed :
    ¬ (0 < (OctomapParameters.default : OctomapParameters ℝ).resolution ∧
        1 ≤ (SaliencyParameters.default Real.log).yaw_bins ∧
        1 ≤ (SaliencyParameters.default Real.log).r_bins ∧
        (SaliencyParameters.default Real.log).yaw_lb
          < (SaliencyParameters.default Real.log).yaw_ub ∧
        (SaliencyParameters.default Real.log).r_lb
          < (SaliencyParameters.default Real.log).r_ub) := by
  simp [SaliencyParameters.default]

/-- Claim C6, amended. The default configuration has `resolution = 0.15 > 0`
and ordered bin bounds `yaw_lb = -180 < yaw_ub = 180` and
`r_lb = 1 < r_ub = 3`, and it leaves both histogram bin counts at zero:
`yaw_bins = 0` and `r_bins = 0`, so neither `yaw_bins ≥ 1` nor `r_bins ≥ 1`
holds. -/
theorem default_configuration :
    ((OctomapParameters.default : OctomapParameters ℝ).resolution = 0.15 ∧
      0 < (OctomapParameters.default : OctomapParameters ℝ).resolution) ∧
    ((SaliencyParameters.default Real.log).yaw_lb = -180 ∧
      (SaliencyParameters.default Real.log).yaw_ub = 180 ∧
      (SaliencyParameters.default Real.log).yaw_lb
        < (SaliencyParameters.default Real.log).yaw_ub) ∧
    ((SaliencyParameters.default Real.log).r_lb = 1 ∧
      (SaliencyParameters.default Real.log).r_ub = 3 ∧
      (SaliencyParameters.default Real.log).r_lb
        < (SaliencyParameters.default Real.log).r_ub) ∧
    ((SaliencyParameters.default Real.log).yaw_bins = 0 ∧
      (SaliencyParameters.default Real.log).r_bins = 0 ∧
      ¬ 1 ≤ (SaliencyParameters.default Real.log).yaw_bins ∧
      ¬ 1 ≤ (SaliencyParameters.default Real.log).r_bins) := by
  simp only [OctomapParameters.default, SaliencyParameters.default]
  norm_num

/-! ## The setter of the saliency options -/

/-- The conversion to `unsigned char` of a value of `[0, 256)` is its floor. -/
theorem toUnsignedChar_eq_floor {α : Type} [LinearOrderedField α] [FloorRing α]
    {x : α} (h0 : 0 ≤ x) (h1 : x < 256) : toUnsignedChar x = Int.floor x := by
  have hf0 : 0 ≤ Int.floor x := Int.floor_nonneg.mpr h0
  have hf1 : Int.floor x < 256 := by
    rw [Int.floor_lt]
    exact_mod_cast h1
  simp only [toUnsignedChar, if_pos h0]
  exact Int.emod_eq_of_lt hf0 (by norm_num; exact hf1)

/-- Claim C7. For `0 ≤ sal_thres < 256`, after `setIOR(alpha, beta, sal_thres)`
the saliency configuration holds `alpha`, `beta` and `sal_thres` truncated
toward zero to an 8-bit unsigned value (`sal_thres` itself when it is whole);
every other field of `salconfig_` and every other member is unchanged. -/
theorem setIOR_stores_and_frames {α τ : Type} [LinearOrderedField α] [FloorRing α]
    (w : OctomapWorld α τ) (alpha beta sal_thres : α)
    (h0 : 0 ≤ sal_thres) (h1 : sal_thres < 256) :
    ((w.setIOR alpha beta sal_thres).salconfig_.alpha = alpha ∧
      (w.setIOR alpha beta sal_thres).salconfig_.beta = beta ∧
      (w.setIOR alpha beta sal_thres).salconfig_.saliency_threshold = Int.floor sal_thres ∧
      0 ≤ (w.setIOR alpha beta sal_thres).salconfig_.saliency_threshold ∧
      (w.setIOR alpha beta sal_thres).salconfig_.saliency_threshold < 2 ^ 8 ∧
      (((w.setIOR alpha beta sal_thres).salconfig_.saliency_threshold : Int) : α)
        ≤ sal_thres ∧
      sal_thres
        < (((w.setIOR alpha beta sal_thres).salconfig_.saliency_threshold : Int) : α) + 1 ∧
      (∀ k : Int, sal_thres = (k : α) →
        (w.setIOR alpha beta sal_thres).salconfig_.saliency_threshold = k)) ∧
    ((w.setIOR alpha beta sal_thres).salconfig_.timestamp = w.salconfig_.timestamp ∧
      (w.setIOR alpha beta sal_thres).salconfig_.projection_limit
        = w.salconfig_.projection_limit ∧
      (w.setIOR alpha beta sal_thres).salconfig_.ground_limit = w.salconfig_.ground_limit ∧
      (w.setIOR alpha beta sal_thres).salconfig_.yaw_lb = w.salconfig_.yaw_lb ∧
      (w.setIOR alpha beta sal_thres).salconfig_.yaw_ub = w.salconfig_.yaw_ub ∧
      (w.setIOR alpha beta sal_thres).salconfig_.yaw_bins = w.salconfig_.yaw_bins ∧
      (w.setIOR alpha beta sal_thres).salconfig_.r_lb = w.salconfig_.r_lb ∧
      (w.setIOR alpha beta sal_thres).salconfig_.r_ub = w.salconfig_.r_ub ∧
      (w.setIOR alpha beta sal_thres).salconfig_.r_bins = w.salconfig_.r_bins ∧
      (w.setIOR alpha beta sal_thres).salconfig_.logodds_abnormal
        = w.salconfig_.logodds_abnormal ∧
      (w.setIOR alpha beta sal_thres).salconfig_.logodds_normal
        = w.salconfig_.logodds_normal ∧
      (w.setIOR alpha beta sal_thres).salconfig_.logodds_prior
        = w.salconfig_.logodds_prior ∧
      (w.setIOR alpha beta sal_thres).salconfig_.logodds_abnormal_thres
        = w.salconfig_.logodds_abnormal_thres ∧
      (w.setIOR alpha beta sal_thres).salconfig_.logodds_normal_thres
        = w.salconfig_.logodds_normal_thres) ∧
    ((w.setIOR alpha beta sal_thres).members = w.members ∧
      (w.setIOR alpha beta sal_thres).params_ = w.params_ ∧
      (w.setIOR alpha beta sal_thres).exp_percent_ = w.exp_percent_ ∧
      (w.setIOR alpha beta sal_thres).exp_percent_rate_ = w.exp_percent_rate_ ∧
      (w.setIOR alpha beta sal_thres).exp_percent_prev_ = w.exp_percent_prev_ ∧
      (w.setIOR alpha beta sal_thres).time_past_ = w.time_past_ ∧
      (w.setIOR alpha beta sal_thres).start_timing_ = w.start_timing_ ∧
      (w.setIOR alpha beta sal_thres).minx_ = w.minx_ ∧
      (w.setIOR alpha beta sal_thres).miny_ = w.miny_ ∧
      (w.setIOR alpha beta sal_thres).minz_ = w.minz_ ∧
      (w.setIOR alpha beta sal_thres).maxx_ = w.maxx_ ∧
      (w.setIOR alpha beta sal_thres).maxy_ = w.maxy_ ∧
      (w.setIOR alpha beta sal_thres).maxz_ = w.maxz_ ∧
      (w.setIOR alpha beta sal_thres).z_ground = w.z_ground) := by
  have hthr : (w.setIOR alpha beta sal_thres).salconfig_.saliency_threshold
      = Int.floor sal_thres := toUnsignedChar_eq_floor h0 h1
  refine ⟨⟨rfl, rfl, hthr, ?_, ?_, ?_, ?_, ?_⟩,
    ⟨rfl, rfl, rfl, rfl, rfl, rfl, rfl, rfl, rfl, rfl, rfl, rfl, rfl, rfl⟩,
    ⟨rfl, rfl, rfl, rfl, rfl, rfl, rfl, rfl, rfl, rfl, rfl, rfl, rfl, rfl⟩⟩
  · rw [hthr]
    exact Int.floor_nonneg.mpr h0
  · rw [hthr, Int.floor_lt]
    exact_mod_cast h1
  · rw [hthr]
    exact Int.floor_le sal_thres
  · rw [hthr]
    exact Int.lt_floor_add_one sal_thres
  · intro k hk
    rw [hthr, hk, Int.floor_intCast]

/-- Claim C7 on the default world with `setIOR(0.5, -0.001, 200)`. -/
theorem setIOR_stores_and_frames_witness :
    (0 : ℝ) ≤ 200 ∧ (200 : ℝ) < 256 ∧
      ((OctomapWorld.init Real.log ()).setIOR 0.5 (-0.001) 200).salconfig_.saliency_threshold
        = 200 :=
  ⟨by norm_num, by norm_num,
    (setIOR_stores_and_frames (OctomapWorld.init Real.log ()) 0.5 (-0.001) 200
      (by norm_num) (by norm_num)).1.2.2.2.2.2.2.2 200 (by norm_num)⟩

end volumetric_mapping

/-! ## Repeated miss updates -/

namespace volumetric_mapping

/-- One update with a negative increment, started at or below the ceiling, is
the increment followed by the lower clamp only. -/
theorem clampLogOdds_add_neg {lo hi d x : ℝ} (hd : d < 0) (hx : x ≤ hi) :
    clampLogOdds lo hi (x + d) = max lo (x + d) := by
  have h : ¬ hi < x + d := by
    rw [not_lt]
    linarith
  by_cases hlo : x + d < lo
  · simp [clampLogOdds, hlo, max_eq_left hlo.le]
  · simp [clampLogOdds, hlo, h, max_eq_right (not_lt.mp hlo)]

/-- Closed form of `n` updates with a negative increment from inside the clamp
interval: the sum, clamped from below. -/
theorem iterate_clampLogOdds_add_neg {lo hi d : ℝ} (hd : d < 0) (hlh : lo ≤ hi) (n : ℕ) :
    ∀ x : ℝ, lo ≤ x → x ≤ hi →
      (fun v => clampLogOdds lo hi (v + d))^[n] x = max lo (x + n * d) := by
  induction n with
  | zero =>
    intro x hx _
    simp [max_eq_right hx]
  | succ n ih =>
    intro x hx hxh
    have hnd : (n : ℝ) * d ≤ 0 :=
      mul_nonpos_of_nonneg_of_nonpos (Nat.cast_nonneg n) hd.le
    have hstep : clampLogOdds lo hi (x + d) = max lo (x + d) := clampLogOdds_add_neg hd hxh
    have h1 : lo ≤ max lo (x + d) := le_max_left _ _
    have h2 : max lo (x + d) ≤ hi := max_le hlh (by linarith)
    rw [Function.iterate_succ_apply, hstep, ih _ h1 h2]
    push_cast
    rcases le_total lo (x + d) with h | h
    · rw [max_eq_right h]
      congr 1
      ring
    · rw [max_eq_left h, max_eq_left (by linarith), max_eq_left (by nlinarith)]

/-- Claim C4. With the default parameters, the miss update
`step(x) = clamp(x + LOGODDS(probability_miss), LOGODDS(threshold_min),
LOGODDS(threshold_max))` drives every log-odds `x` of the clamp interval to the
floor `LOGODDS(threshold_min)` after some number `n` of steps, keeps it there at
every later step, and leaves the floor itself unchanged. -/
theorem missUpdate_reaches_floor (x : ℝ)
    (hlo : LOGODDS Real.log (OctomapParameters.default : OctomapParameters ℝ).threshold_min
      ≤ x)
    (hhi : x
      ≤ LOGODDS Real.log (OctomapParameters.default : OctomapParameters ℝ).threshold_max) :
    (∃ n : ℕ, ∀ m : ℕ, n ≤ m →
        (missUpdate Real.log OctomapParameters.default)^[m] x
          = LOGODDS Real.log (OctomapParameters.default : OctomapParameters ℝ).threshold_min) ∧
      missUpdate Real.log OctomapParameters.default
          (LOGODDS Real.log (OctomapParameters.default : OctomapParameters ℝ).threshold_min)
        = LOGODDS Real.log (OctomapParameters.default : OctomapParameters ℝ).threshold_min := by
  have hd : LOGODDS Real.log (0.4 : ℝ) < 0 := by
    have := LOGODDS_lt_LOGODDS (p := 0.4) (q := 0.5) (by norm_num) (by norm_num) (by norm_num)
    rwa [LOGODDS_half] at this
  have hlh : LOGODDS Real.log (0.12 : ℝ) ≤ LOGODDS Real.log 0.97 :=
    (LOGODDS_lt_LOGODDS (by norm_num) (by norm_num) (by norm_num)).le
  have hf : missUpdate Real.log (OctomapParameters.default : OctomapParameters ℝ)
      = fun v => clampLogOdds (LOGODDS Real.log 0.12) (LOGODDS Real.log 0.97)
          (v + LOGODDS Real.log 0.4) := rfl
  have e1 : (OctomapParameters.default : OctomapParameters ℝ).threshold_min = 0.12 := rfl
  have e2 : (OctomapParameters.default : OctomapParameters ℝ).threshold_max = 0.97 := rfl
  rw [hf, e1]
  rw [e1] at hlo
  rw [e2] at hhi
  constructor
  · obtain ⟨n, hn⟩ := exists_nat_ge ((x - LOGODDS Real.log 0.12) / (-LOGODDS Real.log 0.4))
    refine ⟨n, fun m hm => ?_⟩
    rw [iterate_clampLogOdds_add_neg hd hlh m x hlo hhi]
    apply max_eq_left
    have hm' : (n : ℝ) ≤ m := by exact_mod_cast hm
    have hpos : 0 < -LOGODDS Real.log (0.4 : ℝ) := by linarith
    have := (div_le_iff₀ hpos).mp (le_trans hn hm')
    linarith
  · show clampLogOdds _ _ _ = _
    rw [clampLogOdds_add_neg hd hlh]
    apply max_eq_left
    linarith

/-- Claim C4 started at log-odds 0, which lies inside the clamp interval. -/
theorem missUpdate_reaches_floor_witness :
    ∃ n : ℕ, ∀ m : ℕ, n ≤ m →
      (missUpdate Real.log OctomapParameters.default)^[m] (0 : ℝ)
        = LOGODDS Real.log (OctomapParameters.default : OctomapParameters ℝ).threshold_min :=
  (missUpdate_reaches_floor 0
    (by
      have h := LOGODDS_lt_LOGODDS (p := 0.12) (q := 0.5)
        (by norm_num) (by norm_num) (by norm_num)
      rw [LOGODDS_half] at h
      exact h.le)
    (by
      have h := LOGODDS_lt_LOGODDS (p := 0.5) (q := 0.97)
        (by norm_num) (by norm_num) (by norm_num)
      rw [LOGODDS_half] at h
      exact h.le)).1

end volumetric_mapping
